import Mathlib

/-!
Verification of the Mutiny Wallet Node Manager core, a shallow embedding of
src/mutiny-core/src/nodemanager.rs (with the error surface of
src/node-manager/src/error.rs).  Rust machine integers (u32, u64) are modelled
as Nat, with an explicit modulus where overflow matters (the u32 child-index
increment).  HashMaps are modelled as association lists; hash-map iteration
only ever feeds order-insensitive folds (max, sums) or is followed by a sort,
so list order is immaterial to every statement proved here.
-/

namespace Mutiny

/-- Model of bitcoin::Network. -/
inductive Network where
  | bitcoin
  | testnet
  | signet
  | regtest
deriving DecidableEq, Repr

/-- Model of the MutinyError variants reachable from the embedded code paths.
Errors built with the anyhow! macro are carried as their message string via
the Other variant. -/
inductive MutinyError where
  | IncorrectNetwork (network : Network)
  | NotFound
  | WalletOperationFailed
  | ChainAccessFailed
  | BitcoinPriceError
  | Other (msg : String)
deriving DecidableEq, Repr

/-- Modulus of a Rust u32; the child-index increment in
create_new_node_from_node_manager is u32 arithmetic. -/
def U32_MOD : Nat := 4294967296

/-- Model of NodeIndex: the per-node record persisted in the DB
(nodemanager.rs lines 69-74). -/
structure NodeIndex where
  child_index : Nat
  lsp : Option String
  archived : Option Bool
deriving DecidableEq, Repr

/-- Model of NodeStorage (nodemanager.rs lines 63-66): the persisted
HashMap uuid -> NodeIndex, as an association list. -/
structure NodeStorage where
  nodes : List (String × NodeIndex)
deriving DecidableEq, Repr

/-- HashMap::insert on the association-list model: replace the value stored
under an existing key, otherwise add the binding. -/
def hashmap_insert (m : List (String × NodeIndex)) (k : String) (v : NodeIndex) :
    List (String × NodeIndex) :=
  if m.any (fun p => p.1 == k) then
    m.map (fun p => if p.1 == k then (k, v) else p)
  else
    m ++ [(k, v)]

/-- The child_index of the entry found by
existing_nodes.nodes.iter().max_by_key(child_index) in
create_new_node_from_node_manager (lines 1977-1984); max_by_key returns None
exactly on an empty map, and the caller only uses the child_index of the
returned entry. -/
def max_child_index (s : NodeStorage) : Option Nat :=
  (s.nodes.map (fun p => p.2.child_index)).max?

/-- The next child index computed by create_new_node_from_node_manager
(lines 1977-1984): None => 0, Some(v) => v.child_index + 1 (u32 addition). -/
def next_node_index (s : NodeStorage) : Nat :=
  match max_child_index s with
  | none => 0
  | some m => (m + 1) % U32_MOD

/-- The registry effect of create_new_node_from_node_manager
(lines 1964-2014): compute the next index, build a NodeIndex with
archived = Some(false) and the chosen LSP, and insert it under the fresh
uuid; returns the updated storage and the new entry. -/
def create_new_node (s : NodeStorage) (next_node_uuid : String) (lsp : Option String) :
    NodeStorage × NodeIndex :=
  let idx := next_node_index s
  let next_node : NodeIndex := { child_index := idx, lsp := lsp, archived := some false }
  ({ nodes := hashmap_insert s.nodes next_node_uuid next_node }, next_node)

/-- N successive new_node() calls, supplying the fresh uuid drawn by
Uuid::new_v4() for each call (the LSP choice does not affect the registry
indices and is taken to be None). -/
def run_new_nodes (s : NodeStorage) (uuids : List String) : NodeStorage :=
  match uuids with
  | [] => s
  | u :: rest => run_new_nodes (create_new_node s u none).1 rest

/-- The initially empty registry. -/
def empty_node_storage : NodeStorage := { nodes := [] }

/-- The multiset of child_index values stored in the registry. -/
def child_indices (s : NodeStorage) : List Nat :=
  s.nodes.map (fun p => p.2.child_index)

lemma max?_range (k : Nat) (hk : 0 < k) : (List.range k).max? = some (k - 1) := by
  rw [List.max?_eq_some_iff (fun a => Nat.le_refl a) (fun a b => max_choice a b)
    (fun a b c => Nat.max_le)]
  refine ⟨by simp [List.mem_range]; omega, fun b hb => by simp [List.mem_range] at hb; omega⟩

lemma next_node_index_of_range (s : NodeStorage) (k : Nat)
    (h : child_indices s = List.range k) (hk : k < U32_MOD) :
    next_node_index s = k := by
  unfold next_node_index max_child_index
  rw [show (s.nodes.map (fun p => p.2.child_index)) = List.range k from h]
  rcases Nat.eq_zero_or_pos k with rfl | hpos
  · simp
  · rw [max?_range k hpos]
    show (k - 1 + 1) % U32_MOD = k
    have : k - 1 + 1 = k := by omega
    rw [this, Nat.mod_eq_of_lt hk]

lemma hashmap_insert_fresh (m : List (String × NodeIndex)) (k : String) (v : NodeIndex)
    (h : ∀ p ∈ m, p.1 ≠ k) : hashmap_insert m k v = m ++ [(k, v)] := by
  unfold hashmap_insert
  have : m.any (fun p => p.1 == k) = false := by
    simp only [List.any_eq_false, beq_iff_eq]
    exact h
  rw [this]
  simp

lemma run_new_nodes_spec (uuids : List String) : ∀ (s : NodeStorage) (k : Nat),
    child_indices s = List.range k →
    k + uuids.length ≤ U32_MOD →
    uuids.Nodup →
    (∀ u ∈ uuids, ∀ p ∈ s.nodes, p.1 ≠ u) →
    child_indices (run_new_nodes s uuids) = List.range (k + uuids.length) := by
  induction uuids with
  | nil => intro s k hs _ _ _; simpa using hs
  | cons u rest ih =>
    intro s k hs hlen hnd hfresh
    have hklt : k < U32_MOD := by simp at hlen; omega
    have hidx : next_node_index s = k := next_node_index_of_range s k hs hklt
    have hins : (create_new_node s u none).1.nodes =
        s.nodes ++ [(u, { child_index := k, lsp := none, archived := some false })] := by
      simp only [create_new_node]
      rw [hidx, hashmap_insert_fresh s.nodes u _ (fun p hp => hfresh u (by simp) p hp)]
    have hs2 : child_indices (create_new_node s u none).1 = List.range (k + 1) := by
      unfold child_indices
      rw [hins, List.map_append, List.range_succ]
      unfold child_indices at hs
      rw [hs]
      rfl
    have hfresh2 : ∀ u2 ∈ rest, ∀ p ∈ (create_new_node s u none).1.nodes, p.1 ≠ u2 := by
      intro u2 hu2 p hp
      rw [hins] at hp
      rcases List.mem_append.mp hp with hp | hp
      · exact hfresh u2 (by simp [hu2]) p hp
      · simp at hp
        have hu : p.1 = u := by rw [hp]
        rw [hu]
        intro hcontra
        exact (List.nodup_cons.mp hnd).1 (hcontra.symm ▸ hu2)
    have := ih (create_new_node s u none).1 (k + 1) hs2
      (by simp at hlen ⊢; omega) (List.nodup_cons.mp hnd).2 hfresh2
    simpa [run_new_nodes, Nat.add_assoc, Nat.add_comm 1 rest.length] using this

/-- C1: starting from an empty registry, N successful new_node() calls (with
the N fresh uuids drawn for them, at most 2^32 calls so that the u32 index
increment never wraps) leave the registry with child_index values exactly
0, 1, ..., N-1; the values are pairwise distinct, and the index computed at
each call (one more than the maximum existing index, or 0 on the empty
registry) is strictly greater than every index already stored. -/
theorem new_node_child_indices_exact (uuids : List String)
    (hlen : uuids.length ≤ U32_MOD) (hfresh : uuids.Nodup) :
    child_indices (run_new_nodes empty_node_storage uuids) = List.range uuids.length ∧
    (child_indices (run_new_nodes empty_node_storage uuids)).Nodup ∧
    (∀ k, k < uuids.length →
      ∀ p ∈ (run_new_nodes empty_node_storage (uuids.take k)).nodes,
        p.2.child_index < next_node_index (run_new_nodes empty_node_storage (uuids.take k))) := by
  have hmain : child_indices (run_new_nodes empty_node_storage uuids) =
      List.range uuids.length := by
    have := run_new_nodes_spec uuids empty_node_storage 0 (by rfl)
      (by omega) hfresh (by intro u _ p hp; simp [empty_node_storage] at hp)
    simpa using this
  refine ⟨hmain, by rw [hmain]; exact List.nodup_range _, ?_⟩
  intro k hk p hp
  have htake : child_indices (run_new_nodes empty_node_storage (uuids.take k)) =
      List.range (uuids.take k).length := by
    have := run_new_nodes_spec (uuids.take k) empty_node_storage 0 (by rfl)
      (by have := List.length_take_le k uuids; omega)
      (hfresh.sublist (List.take_sublist k uuids))
      (by intro u _ p2 hp2; simp [empty_node_storage] at hp2)
    simpa using this
  have hlentake : (uuids.take k).length = k := by
    rw [List.length_take]; omega
  rw [hlentake] at htake
  have hnext : next_node_index (run_new_nodes empty_node_storage (uuids.take k)) = k :=
    next_node_index_of_range _ k htake (by omega)
  rw [hnext]
  have : p.2.child_index ∈ child_indices (run_new_nodes empty_node_storage (uuids.take k)) :=
    List.mem_map.mpr ⟨p, hp, rfl⟩
  rw [htake] at this
  exact List.mem_range.mp this

/-- Witness for C1 at a concrete input: three new_node() calls with distinct
uuids yield child indices 0, 1, 2. -/
theorem new_node_child_indices_exact_witness :
    (["a", "b", "c"] : List String).Nodup ∧
    child_indices (run_new_nodes empty_node_storage ["a", "b", "c"]) = List.range 3 :=
  ⟨by decide, (new_node_child_indices_exact ["a", "b", "c"] (by decide) (by decide)).1⟩

/-- Projection of lightning::ChannelDetails to the fields the node manager
reads: an identifier for the channel (standing for the funding outpoint /
channel id the chain monitor keys on) and the channel balance in
millisatoshis. -/
structure ChannelDetails where
  channel_id : Nat
  balance_msat : Nat
deriving DecidableEq, Repr

/-- Model of lightning::chain::channelmonitor::Balance: the six claimable
balance variants matched in NodeManager::get_balance (lines 1091-1115). -/
inductive Balance where
  | claimable_on_channel_close (claimable_amount_satoshis : Nat)
  | claimable_awaiting_confirmations (claimable_amount_satoshis : Nat)
  | contentious_claimable (claimable_amount_satoshis : Nat)
  | maybe_timeout_claimable_htlc (claimable_amount_satoshis : Nat)
  | maybe_preimage_claimable_htlc (claimable_amount_satoshis : Nat)
  | counterparty_revoked_output_claimable (claimable_amount_satoshis : Nat)
deriving DecidableEq, Repr

/-- The claimable amount extracted from each Balance variant by the match in
NodeManager::get_balance (lines 1091-1115). -/
def Balance.claimable_amount : Balance → Nat
  | claimable_on_channel_close a => a
  | claimable_awaiting_confirmations a => a
  | contentious_claimable a => a
  | maybe_timeout_claimable_htlc a => a
  | maybe_preimage_claimable_htlc a => a
  | counterparty_revoked_output_claimable a => a

/-- Model of a running Node handle as consumed by the node manager: its
uuid (_uuid), node pubkey, channel_manager.list_channels() result, the chain
monitor state as claimable balances per monitored channel, and
peer_manager.get_peer_node_ids(). -/
structure Node where
  uuid : String
  pubkey : Nat
  channels : List ChannelDetails
  monitors : List (Nat × List Balance)
  connected_peer_ids : List Nat
deriving DecidableEq, Repr

/-- Model of chain_monitor.get_claimable_balances(ignored_channels): the
claimable balances of every monitored channel that is not among the ignored
channels. -/
def Node.get_claimable_balances (n : Node) (ignored_channels : List ChannelDetails) :
    List Balance :=
  (n.monitors.filter (fun m => ! ignored_channels.any (fun c => c.channel_id == m.1))).flatMap
    (fun m => m.2)

/-- Model of bdk::Balance as read from the on-chain wallet. -/
structure OnchainBalance where
  immature : Nat
  trusted_pending : Nat
  untrusted_pending : Nat
  confirmed : Nat
deriving DecidableEq, Repr

/-- Model of MutinyBalance (lines 406-411). -/
structure MutinyBalance where
  confirmed : Nat
  unconfirmed : Nat
  lightning : Nat
  force_close : Nat
deriving DecidableEq, Repr

/-- Model of NodeManager::get_balance (lines 1073-1124): lightning sums
balance_msat over list_channels() of every running node and divides the total
by 1000; force_close sums the claimable amounts that each node's chain
monitor reports with the node's full channel list passed as
ignored_channels. -/
def get_balance (onchain : OnchainBalance) (nodes : List Node) : MutinyBalance :=
  let lightning_msats : Nat :=
    ((nodes.flatMap (fun n => n.channels)).map (fun c => c.balance_msat)).sum
  let force_close : Nat :=
    ((nodes.flatMap (fun n => n.get_claimable_balances n.channels)).map
      (fun b => b.claimable_amount)).sum
  { confirmed := onchain.confirmed + onchain.trusted_pending
    unconfirmed := onchain.untrusted_pending + onchain.immature
    lightning := lightning_msats / 1000
    force_close := force_close }

/-- A monitored channel of a node is force-closing when it is no longer in
the node's open-channel list (list_channels()). -/
def Node.is_force_closing (n : Node) (channel_id : Nat) : Bool :=
  ! n.channels.any (fun c => c.channel_id == channel_id)

/-- Stated from the claim's and the spec's words: the lightning balance sums,
over the open channels of every running node, the per-channel outbound
balance in millisatoshis divided by 1000 (the division applied to each
channel, as the sentence reads). -/
def spec_lightning_balance (nodes : List Node) : Nat :=
  ((nodes.flatMap (fun n => n.channels)).map (fun c => c.balance_msat / 1000)).sum

/-- Stated from the spec sentence: the force-close balance sums the claimable
amounts of every claim type over exactly the monitored channels that are
force-closing, i.e. not in the node's open-channel list. -/
def spec_force_close_balance (nodes : List Node) : Nat :=
  ((nodes.flatMap (fun n =>
      (n.monitors.filter (fun m => n.is_force_closing m.1)).flatMap (fun m => m.2))).map
    (fun b => b.claimable_amount)).sum

/-- C2, amended: get_balance never counts funds of force-closing channels in
the lightning field: the lightning field is unchanged under arbitrary
replacement of every node's chain-monitor state (so no monitor-reported,
i.e. force-closing, funds enter it); it equals the total of balance_msat
over the open channels of every running node divided by 1000 in one integer
division of the total (line 1121), not the sum of per-channel divisions; and
the force_close field equals the spec's sum of the six claimable amounts
over exactly the monitored channels not in the node's open-channel list. -/
theorem get_balance_force_close_split (onchain : OnchainBalance) (nodes : List Node)
    (f : Node → List (Nat × List Balance)) :
    (get_balance onchain (nodes.map (fun n => { n with monitors := f n }))).lightning =
      (get_balance onchain nodes).lightning ∧
    (get_balance onchain nodes).lightning =
      ((nodes.flatMap (fun n => n.channels)).map (fun c => c.balance_msat)).sum / 1000 ∧
    (get_balance onchain nodes).force_close = spec_force_close_balance nodes := by
  refine ⟨?_, rfl, ?_⟩
  · simp only [get_balance]
    congr 1
    induction nodes with
    | nil => rfl
    | cons n rest ih => simp_all
  · simp only [get_balance, spec_force_close_balance, Node.get_claimable_balances,
      Node.is_force_closing]

/-- Open channel holding 500 msat, used by the C2 counterexample. -/
def cex_chan1 : ChannelDetails := { channel_id := 1, balance_msat := 500 }

/-- A second open channel holding 500 msat, used by the C2 counterexample. -/
def cex_chan2 : ChannelDetails := { channel_id := 2, balance_msat := 500 }

/-- Node with two open channels of 500 msat each, used by the C2
counterexample. -/
def cex_balance_node : Node :=
  { uuid := "b", pubkey := 3, channels := [cex_chan1, cex_chan2], monitors := [],
    connected_peer_ids := [] }

/-- Zero on-chain balance for the C2 counterexample. -/
def cex_onchain : OnchainBalance :=
  { immature := 0, trusted_pending := 0, untrusted_pending := 0, confirmed := 0 }

/-- Counterexample to C2 as stated: with two open channels of 500 msat each,
the code computes lightning = (500 + 500) / 1000 = 1 (one division of the
total, line 1121), while the claimed per-channel sum of msat / 1000 gives
500 / 1000 + 500 / 1000 = 0; the claimed value of the lightning field is
wrong at this input. -/
theorem get_balance_lightning_division_refuted :
    (get_balance cex_onchain [cex_balance_node]).lightning = 1 ∧
    spec_lightning_balance [cex_balance_node] = 0 ∧
    (get_balance cex_onchain [cex_balance_node]).lightning ≠
      spec_lightning_balance [cex_balance_node] :=
  ⟨rfl, rfl, by decide⟩

/-- HashMap::get on the persisted registry: the NodeIndex stored under a
uuid. -/
def lookup_node (s : NodeStorage) (uuid : String) : Option NodeIndex :=
  (s.nodes.find? (fun p => p.1 == uuid)).map (fun p => p.2)

/-- The node manager's two registry stores: the persisted NodeStorage kept in
the DB (written only by storage.insert_nodes, at startup on line 584 and in
create_new_node_from_node_manager on line 2013, and read by
storage.get_nodes) and the in-memory node_storage mutex mirror (line 439).
create_new_node_from_node_manager writes the same updated map to both
(lines 2013-2014), which is why the single-store model above suffices for
the new_node registry statements; archive_node_by_uuid writes only the
mirror. -/
structure RegistryState where
  persisted : NodeStorage
  mirror : NodeStorage
deriving DecidableEq, Repr

/-- Model of NodeManager::archive_node_by_uuid (lines 1230-1245): lock the
in-memory node_storage mirror, fetch the entry, set archived = Some(true)
and insert it back into the mirror.  No storage.insert_nodes call occurs on
this path, so the persisted store is left untouched. -/
def archive_node_by_uuid (r : RegistryState) (node_uuid : String) :
    Except MutinyError RegistryState :=
  match lookup_node r.mirror node_uuid with
  | none => Except.error (MutinyError.Other "Could not find node to archive")
  | some node =>
      let archived_entry : NodeIndex := { node with archived := some true }
      Except.ok { r with
        mirror := { nodes := hashmap_insert r.mirror.nodes node_uuid archived_entry } }

/-- Model of NodeManager::archive_node (lines 1210-1224): look the node up by
pubkey in the running map, refuse when it has any channel or any claimable
balance (get_claimable_balances with an empty ignored list), otherwise
archive by uuid. -/
def archive_node (nodes : List Node) (r : RegistryState) (pubkey : Nat) :
    Except MutinyError RegistryState :=
  match nodes.find? (fun n => n.pubkey == pubkey) with
  | some node =>
      if node.channels.isEmpty && (node.get_claimable_balances []).isEmpty then
        archive_node_by_uuid r node.uuid
      else
        Except.error (MutinyError.Other "Node has active channels, cannot archive")
  | none => Except.error (MutinyError.Other "Could not find node to archive")

lemma find?_insert_hit (m : List (String × NodeIndex)) (k : String) (v : NodeIndex)
    (h : m.any (fun p => p.1 == k) = true) :
    (m.map (fun p => if p.1 == k then (k, v) else p)).find? (fun p => p.1 == k) =
      some (k, v) := by
  induction m with
  | nil => simp at h
  | cons p rest ih =>
    by_cases hp : p.1 == k
    · simp only [List.map_cons, if_pos hp]
      exact List.find?_cons_of_pos _ (by simp)
    · simp only [List.map_cons, if_neg hp]
      rw [List.find?_cons_of_neg _ (by simp_all)]
      exact ih (by simp_all)

lemma find?_insert_miss (m : List (String × NodeIndex)) (k : String) (v : NodeIndex)
    (h : m.any (fun p => p.1 == k) = false) :
    (m ++ [(k, v)]).find? (fun p => p.1 == k) = some (k, v) := by
  induction m with
  | nil => simp
  | cons p rest ih =>
    simp only [List.any_cons, Bool.or_eq_false_iff] at h
    rw [List.cons_append, List.find?_cons_of_neg _ (by simp [h.1])]
    exact ih h.2

lemma lookup_hashmap_insert (s : NodeStorage) (k : String) (v : NodeIndex) :
    lookup_node { nodes := hashmap_insert s.nodes k v } k = some v := by
  unfold lookup_node hashmap_insert
  by_cases h : s.nodes.any (fun p => p.1 == k)
  · rw [if_pos h, find?_insert_hit s.nodes k v h]
    rfl
  · rw [if_neg h, find?_insert_miss s.nodes k v (by
      simp only [Bool.not_eq_true] at h
      exact h)]
    rfl

/-- C3: for a running node found under pubkey p whose uuid has a mirror
entry, archive_node(p) returns an error exactly when the node has at least
one channel or at least one claimable balance — that half of the claim is as
the code has it; but on success the archived = Some(true) update lands only
in the in-memory node_storage mirror, and the persisted NodeStorage is
returned unchanged, against the claim's (and the function's own doc
comment's) persisted-entry postcondition. -/
theorem archive_node_mirror_not_persisted (nodes : List Node) (r : RegistryState)
    (pubkey : Nat) (node : Node) (idx : NodeIndex)
    (hfind : nodes.find? (fun n => n.pubkey == pubkey) = some node)
    (hidx : lookup_node r.mirror node.uuid = some idx) :
    ((∃ e, archive_node nodes r pubkey = Except.error e) ↔
      node.channels ≠ [] ∨ node.get_claimable_balances [] ≠ []) ∧
    (∀ r2, archive_node nodes r pubkey = Except.ok r2 →
      lookup_node r2.mirror node.uuid = some { idx with archived := some true } ∧
      r2.persisted = r.persisted) := by
  rw [show archive_node nodes r pubkey =
      (if node.channels.isEmpty && (node.get_claimable_balances []).isEmpty then
        archive_node_by_uuid r node.uuid
      else
        Except.error (MutinyError.Other "Node has active channels, cannot archive")) from by
    unfold archive_node
    rw [hfind]]
  by_cases hc : node.channels.isEmpty && (node.get_claimable_balances []).isEmpty
  · rw [if_pos hc]
    simp only [Bool.and_eq_true, List.isEmpty_iff] at hc
    unfold archive_node_by_uuid
    rw [hidx]
    constructor
    · simp [hc.1, hc.2]
    · intro r2 hr2
      have hr2eq : r2 = { r with mirror := { nodes := hashmap_insert r.mirror.nodes node.uuid { idx with archived := some true } } } := by
        injection hr2 with h
        exact h.symm
      rw [hr2eq]
      exact ⟨lookup_hashmap_insert r.mirror node.uuid { idx with archived := some true }, rfl⟩
  · rw [if_neg hc]
    simp only [Bool.and_eq_true, List.isEmpty_iff, not_and_or] at hc
    constructor
    · constructor
      · intro _
        rcases hc with hc | hc
        · exact Or.inl hc
        · exact Or.inr hc
      · intro _
        exact ⟨MutinyError.Other "Node has active channels, cannot archive", rfl⟩
    · intro r2 hr2
      exact absurd hr2 (by simp)

/-- Concrete running node used by the C3 witness: no channels, no claimable
balances. -/
def wit_node : Node :=
  { uuid := "n1", pubkey := 1, channels := [], monitors := [], connected_peer_ids := [] }

/-- Concrete registry state used by the C3 witness: the persisted store and
the mirror both hold the unarchived entry of wit_node. -/
def wit_registry : RegistryState :=
  { persisted := { nodes := [("n1", { child_index := 0, lsp := none, archived := some false })] }
    mirror := { nodes := [("n1", { child_index := 0, lsp := none, archived := some false })] } }

/-- The registry state archive_node produces from wit_registry: the mirror
entry is archived, the persisted entry is not. -/
def wit_registry2 : RegistryState :=
  { persisted := { nodes := [("n1", { child_index := 0, lsp := none, archived := some false })] }
    mirror := { nodes := [("n1", { child_index := 0, lsp := none, archived := some true })] } }

/-- Witness for C3 at the failing input: archiving an idle running node
succeeds and sets archived = Some(true) in the mirror, while the persisted
entry still carries archived = Some(false). -/
theorem archive_node_mirror_not_persisted_witness :
    archive_node [wit_node] wit_registry 1 = Except.ok wit_registry2 ∧
    lookup_node wit_registry2.mirror wit_node.uuid =
      some { child_index := 0, lsp := none, archived := some true } ∧
    wit_registry2.persisted = wit_registry.persisted ∧
    lookup_node wit_registry2.persisted wit_node.uuid =
      some { child_index := 0, lsp := none, archived := some false } :=
  have h := (archive_node_mirror_not_persisted [wit_node] wit_registry 1 wit_node
    { child_index := 0, lsp := none, archived := some false } (by rfl) (by rfl)).2
    wit_registry2 (by rfl)
  ⟨by rfl, h.1, h.2, by rfl⟩

/-- Model of lightning_invoice::InvoiceDescription. -/
inductive InvoiceDescription where
  | direct (description : String)
  | hash (h : Nat)
deriving DecidableEq, Repr

/-- Projection of a BOLT-11 lightning_invoice::Invoice to the fields read by
nodemanager.rs: network tag, payment hash, optional payee pubkey, optional
amount in millisatoshis, creation timestamp (duration_since_epoch, seconds),
relative expiry (expiry_time, seconds) and description. -/
structure Bolt11Invoice where
  network : Network
  payment_hash : Nat
  payee_pub_key : Option Nat
  amount_milli_satoshis : Option Nat
  timestamp : Nat
  expiry_time : Nat
  description : InvoiceDescription
deriving DecidableEq, Repr

/-- Model of MutinyInvoice (lines 97-111). -/
structure MutinyInvoice where
  bolt11 : Option Bolt11Invoice
  description : Option String
  payment_hash : Nat
  preimage : Option String
  payee_pubkey : Option Nat
  amount_sats : Option Nat
  expire : Nat
  paid : Bool
  fees_paid : Option Nat
  inbound : Bool
  labels : List String
  last_updated : Nat
deriving DecidableEq, Repr

/-- Hex rendering of a preimage (ToHex in the source); only its existence
matters to the statements below. -/
def to_hex (n : Nat) : String := String.mk (Nat.toDigits 16 n)

/-- Model of the From Invoice conversion for MutinyInvoice
(lines 113-148). -/
def MutinyInvoice.from_invoice (value : Bolt11Invoice) : MutinyInvoice :=
  let description : Option String :=
    match value.description with
    | InvoiceDescription.direct a => if a.isEmpty then none else some a
    | InvoiceDescription.hash _ => none
  let timestamp := value.timestamp
  let expiry := timestamp + value.expiry_time
  let payment_hash := value.payment_hash
  let payee_pubkey := value.payee_pub_key
  let amount_sats := value.amount_milli_satoshis.map (fun m => m / 1000)
  { bolt11 := some value
    description := description
    payment_hash := payment_hash
    preimage := none
    payee_pubkey := payee_pubkey
    amount_sats := amount_sats
    expire := expiry
    paid := false
    fees_paid := none
    inbound := true
    labels := []
    last_updated := timestamp }

/-- Modelled from the spec: HTLC payment status. The type is declared in
src/mutiny-core/src/event.rs, which is not included under src/; the variants
are the ones its uses in nodemanager.rs and the nodemanager tests require. -/
inductive HTLCStatus where
  | Pending
  | InFlight
  | Succeeded
  | Failed
deriving DecidableEq, Repr

/-- Modelled from the spec: the payment bookkeeping record PaymentInfo from
src/mutiny-core/src/event.rs, which is not included under src/; the fields
are the ones read by nodemanager.rs and constructed by its tests.
MillisatAmount is a newtype over an optional u64 amount and is modelled
directly as the optional amount. -/
structure PaymentInfo where
  preimage : Option Nat
  secret : Option Nat
  status : HTLCStatus
  amt_msat : Option Nat
  fee_paid_msat : Option Nat
  bolt11 : Option Bolt11Invoice
  payee_pubkey : Option Nat
  last_update : Nat
deriving DecidableEq, Repr

/-- Model of MutinyInvoice::from(PaymentInfo, PaymentHash, bool, labels)
(lines 150-205).  The source returns Result but every path returns Ok, so
the conversion is modelled as total. -/
def MutinyInvoice.from_payment_info (i : PaymentInfo) (payment_hash : Nat) (inbound : Bool)
    (labels : List String) : MutinyInvoice :=
  match i.bolt11 with
  | some invoice =>
      let amount_sats : Option Nat :=
        match invoice.amount_milli_satoshis with
        | some inv_amt =>
            if inv_amt == 0 then i.amt_msat.map (fun a => a / 1000)
            else some (inv_amt / 1000)
        | none => i.amt_msat.map (fun a => a / 1000)
      { MutinyInvoice.from_invoice invoice with
        inbound := inbound
        last_updated := i.last_update
        paid := i.status == HTLCStatus.Succeeded
        labels := labels
        amount_sats := amount_sats
        payee_pubkey := i.payee_pubkey
        preimage := i.preimage.map to_hex
        fees_paid := i.fee_paid_msat.map (fun f => f / 1000) }
  | none =>
      let paid := i.status == HTLCStatus.Succeeded
      let amount_sats : Option Nat := i.amt_msat.map (fun s => s / 1000)
      let fees_paid := i.fee_paid_msat.map (fun f => f / 1000)
      let preimage := i.preimage.map to_hex
      { bolt11 := none
        description := none
        payment_hash := payment_hash
        preimage := preimage
        payee_pubkey := i.payee_pubkey
        amount_sats := amount_sats
        expire := i.last_update
        paid := paid
        fees_paid := fees_paid
        inbound := inbound
        labels := labels
        last_updated := i.last_update }

/-- Modelled from the spec: a settled payment record carries its preimage
("preimage (present iff settled)").  PaymentInfo records are produced by the
event handler in src/mutiny-core/src/event.rs, which is not included under
src/, so this invariant of its outputs is taken from the spec. -/
def payment_info_preimage_invariant (i : PaymentInfo) : Prop :=
  i.status = HTLCStatus.Succeeded → i.preimage.isSome = true

/-- C9: every invoice record produced by the two conversions satisfies
paid = true implies preimage is Some: unconditionally for the conversion from
a BOLT-11 invoice (which always sets paid = false), and for the conversion
from a PaymentInfo under the spec's invariant that settled PaymentInfos carry
their preimage. -/
theorem paid_implies_preimage :
    (∀ value : Bolt11Invoice, (MutinyInvoice.from_invoice value).paid = true →
      (MutinyInvoice.from_invoice value).preimage.isSome = true) ∧
    (∀ (i : PaymentInfo) (payment_hash : Nat) (inbound : Bool) (labels : List String),
      payment_info_preimage_invariant i →
      (MutinyInvoice.from_payment_info i payment_hash inbound labels).paid = true →
      (MutinyInvoice.from_payment_info i payment_hash inbound labels).preimage.isSome = true) := by
  constructor
  · intro value h
    simp [MutinyInvoice.from_invoice] at h
  · intro i payment_hash inbound labels hinv
    cases hb : i.bolt11 with
    | some invoice =>
      simp only [MutinyInvoice.from_payment_info, hb, beq_iff_eq]
      intro hpaid
      have := hinv hpaid
      rcases Option.isSome_iff_exists.mp this with ⟨x, hx⟩
      simp [hx]
    | none =>
      simp only [MutinyInvoice.from_payment_info, hb, beq_iff_eq]
      intro hpaid
      have := hinv hpaid
      rcases Option.isSome_iff_exists.mp this with ⟨x, hx⟩
      simp [hx]

/-- Concrete settled PaymentInfo used by the C9 witness. -/
def wit_payment_info : PaymentInfo :=
  { preimage := some 7
    secret := none
    status := HTLCStatus.Succeeded
    amt_msat := some 100000
    fee_paid_msat := some 1000
    bolt11 := none
    payee_pubkey := some 2
    last_update := 1681781585 }

/-- Witness for C9 at a concrete input: the record built from a settled
keysend-style PaymentInfo is paid and carries a preimage. -/
theorem paid_implies_preimage_witness :
    payment_info_preimage_invariant wit_payment_info ∧
    (MutinyInvoice.from_payment_info wit_payment_info 5 false []).preimage.isSome = true :=
  ⟨fun _ => rfl,
    paid_implies_preimage.2 wit_payment_info 5 false [] (fun _ => rfl) (by rfl)⟩

/-- Model of bdk::chain::ConfirmationTime. -/
inductive ConfirmationTime where
  | unconfirmed
  | confirmed (height : Nat) (time : Nat)
deriving DecidableEq, Repr

/-- Model of TransactionDetails (lines 261-280); the raw transaction body is
abstracted to an opaque identifier. -/
structure TransactionDetails where
  transaction : Option Nat
  txid : Nat
  received : Nat
  sent : Nat
  fee : Option Nat
  confirmation_time : ConfirmationTime
  labels : List String
deriving DecidableEq, Repr

/-- Model of ChannelClosure (lines 311-318); byte-array ids are abstracted to
numbers. -/
structure ChannelClosure where
  user_channel_id : Option Nat
  channel_id : Option Nat
  node_id : Option Nat
  reason : String
  timestamp : Nat
deriving DecidableEq, Repr

/-- Model of ActivityItem (lines 349-354). -/
inductive ActivityItem where
  | onChain (t : TransactionDetails)
  | lightning (i : MutinyInvoice)
  | channelClosed (c : ChannelClosure)
deriving DecidableEq, Repr

/-- Model of ActivityItem::last_updated (lines 357-366). -/
def ActivityItem.last_updated : ActivityItem → Option Nat
  | onChain t =>
      match t.confirmation_time with
      | ConfirmationTime.confirmed _ time => some time
      | ConfirmationTime.unconfirmed => none
  | lightning i => some i.last_updated
  | channelClosed c => some c.timestamp

/-- Model of Ord for ActivityItem (lines 393-404): compare timestamps, with
None greater than Some so that pending items sort last in ascending order. -/
def ActivityItem.cmp (a b : ActivityItem) : Ordering :=
  match a.last_updated, b.last_updated with
  | some self_time, some other_time => compare self_time other_time
  | some _, none => Ordering.lt
  | none, some _ => Ordering.gt
  | none, none => Ordering.eq

/-- The comparison activity.sort_by(|a, b| b.cmp(a)) sorts by: a may precede
b exactly when b.cmp(a) is not Greater (descending order of
ActivityItem::cmp). -/
def activity_desc_le (a b : ActivityItem) : Bool :=
  ActivityItem.cmp b a != Ordering.gt

/-- Model of NodeManager::get_activity (lines 984-1010): keep only paid
invoices, append all on-chain transactions and all channel closures, then
sort descending (newest first). -/
def get_activity (invoices : List MutinyInvoice) (closures : List ChannelClosure)
    (onchain : List TransactionDetails) : List ActivityItem :=
  (((invoices.filter (fun i => i.paid)).map (fun i => ActivityItem.lightning i)) ++
      (onchain.map (fun t => ActivityItem.onChain t)) ++
      (closures.map (fun c => ActivityItem.channelClosed c))).mergeSort activity_desc_le

lemma bne_gt_iff (o : Ordering) : (o != Ordering.gt) = true ↔ o ≠ Ordering.gt := by
  cases o <;> decide

lemma activity_desc_le_trans (a b c : ActivityItem) (h1 : activity_desc_le a b = true)
    (h2 : activity_desc_le b c = true) : activity_desc_le a c = true := by
  simp only [activity_desc_le, bne_gt_iff, ne_eq] at h1 h2 ⊢
  cases ha : a.last_updated <;> cases hb : b.last_updated <;> cases hc : c.last_updated <;>
    simp_all [ActivityItem.cmp, Nat.compare_eq_gt] <;> omega

lemma activity_desc_le_total (a b : ActivityItem) :
    (activity_desc_le a b || activity_desc_le b a) = true := by
  simp only [activity_desc_le, bne_gt_iff, ne_eq, Bool.or_eq_true]
  cases ha : a.last_updated <;> cases hb : b.last_updated <;>
    simp_all [ActivityItem.cmp, Nat.compare_eq_gt] <;> omega

/-- C4: the list returned by get_activity contains a lightning item exactly
for the paid input invoices, an on-chain item exactly for every input
transaction, a closure item exactly for every input closure; it is sorted
descending under the ActivityItem ordering (where an item with no timestamp
is greater than any item with one); consequently every item with no
timestamp precedes every item with a timestamp. -/
theorem get_activity_spec (invoices : List MutinyInvoice) (closures : List ChannelClosure)
    (onchain : List TransactionDetails) :
    (∀ i, ActivityItem.lightning i ∈ get_activity invoices closures onchain ↔
      i ∈ invoices ∧ i.paid = true) ∧
    (∀ t, ActivityItem.onChain t ∈ get_activity invoices closures onchain ↔ t ∈ onchain) ∧
    (∀ c, ActivityItem.channelClosed c ∈ get_activity invoices closures onchain ↔
      c ∈ closures) ∧
    (get_activity invoices closures onchain).Pairwise
      (fun a b => activity_desc_le a b = true) ∧
    (get_activity invoices closures onchain).Pairwise
      (fun a b => b.last_updated = none → a.last_updated = none) := by
  have hsorted : (get_activity invoices closures onchain).Pairwise
      (fun a b => activity_desc_le a b = true) :=
    List.sorted_mergeSort activity_desc_le_trans activity_desc_le_total _
  refine ⟨?_, ?_, ?_, hsorted, ?_⟩
  · intro i
    simp [get_activity, List.mem_filter, and_comm]
  · intro t
    simp [get_activity]
  · intro c
    simp [get_activity]
  · refine hsorted.imp ?_
    intro a b hle hb
    simp only [activity_desc_le, bne_gt_iff, ne_eq] at hle
    cases ha : a.last_updated with
    | none => rfl
    | some x =>
      exfalso
      apply hle
      simp [ActivityItem.cmp, hb, ha]

instance optionTransCmp {α : Type} [Ord α] [Batteries.TransOrd α] :
    Batteries.TransCmp (compare : Option α → Option α → Ordering) where
  symm a b := by
    cases a <;> cases b
    · rfl
    · rfl
    · rfl
    · exact @Batteries.OrientedCmp.symm α compare _ _ _
  le_trans {a b c} h1 h2 := by
    cases a <;> cases b <;> cases c
    · exact h2
    · exact fun h => nomatch h
    · exact fun h => nomatch h
    · exact fun h => nomatch h
    · exact h1
    · exact absurd rfl h1
    · exact h2
    · exact @Batteries.TransCmp.le_trans α compare _ _ _ _ h1 h2

/-- Model of the metadata stored per peer by the gossip peer store, as read
back in NodeManager::list_peers (lines 1769-1784). -/
structure PeerMetadata where
  connection_string : Option String
  «alias» : Option String
  color : Option String
  label : Option String
deriving DecidableEq, Repr

/-- Model of MutinyPeer (lines 207-215). -/
structure MutinyPeer where
  pubkey : Nat
  connection_string : Option String
  «alias» : Option String
  color : Option String
  label : Option String
  is_connected : Bool
deriving DecidableEq, Repr

/-- Model of Ord for MutinyPeer (lines 223-231): is_connected, then alias,
then pubkey, then connection_string, each by its derived Rust ordering
(false before true; None before Some). -/
def MutinyPeer.cmp (a b : MutinyPeer) : Ordering :=
  (compare a.is_connected b.is_connected).then
    ((compare a.«alias» b.«alias»).then
      ((compare a.pubkey b.pubkey).then (compare a.connection_string b.connection_string)))

instance mutinyPeerTransCmp : Batteries.TransCmp MutinyPeer.cmp :=
  inferInstanceAs (Batteries.TransCmp
    (compareLex (Ordering.byKey MutinyPeer.is_connected compare)
      (compareLex (Ordering.byKey MutinyPeer.«alias» compare)
        (compareLex (Ordering.byKey MutinyPeer.pubkey compare)
          (Ordering.byKey MutinyPeer.connection_string compare)))))

/-- Vec::sort() orders by Ord::cmp: a may precede b exactly when cmp(a, b)
is not Greater. -/
def peer_le (a b : MutinyPeer) : Bool := MutinyPeer.cmp a b != Ordering.gt

/-- The pubkeys currently connected across all nodes (lines 1789-1792). -/
def connected_peers (nodes : List Node) : List Nat :=
  nodes.flatMap (fun n => n.connected_peer_ids)

/-- The peers from storage, with is_connected set when the pubkey is in the
connected set (lines 1773-1784 and 1794-1799). -/
def storage_peers (peer_data : List (Nat × PeerMetadata)) (nodes : List Node) :
    List MutinyPeer :=
  peer_data.map (fun p =>
    { pubkey := p.1
      connection_string := p.2.connection_string
      «alias» := p.2.«alias»
      color := p.2.color
      label := p.2.label
      is_connected := (connected_peers nodes).contains p.1 })

/-- The connected peers missing from storage, synthesized with empty
metadata (lines 1801-1816). -/
def missing_peers (peer_data : List (Nat × PeerMetadata)) (nodes : List Node) :
    List MutinyPeer :=
  ((connected_peers nodes).filter
      (fun peer => ! (storage_peers peer_data nodes).any (fun p => p.pubkey == peer))).map
    (fun peer =>
      { pubkey := peer
        connection_string := none
        «alias» := none
        color := none
        label := none
        is_connected := true })

/-- Model of NodeManager::list_peers (lines 1769-1822): storage peers with
connection flags, plus synthesized missing connected peers, sorted by the
derived MutinyPeer ordering. -/
def list_peers (peer_data : List (Nat × PeerMetadata)) (nodes : List Node) :
    List MutinyPeer :=
  (storage_peers peer_data nodes ++ missing_peers peer_data nodes).mergeSort peer_le

lemma peer_le_trans (a b c : MutinyPeer) (h1 : peer_le a b = true) (h2 : peer_le b c = true) :
    peer_le a c = true := by
  simp only [peer_le, bne_gt_iff, ne_eq] at h1 h2 ⊢
  exact Batteries.TransCmp.le_trans h1 h2

lemma peer_le_total (a b : MutinyPeer) : (peer_le a b || peer_le b a) = true := by
  simp only [peer_le, bne_gt_iff, ne_eq, Bool.or_eq_true]
  by_cases h : MutinyPeer.cmp a b = Ordering.gt
  · have h2 : MutinyPeer.cmp b a = Ordering.lt := Batteries.OrientedCmp.cmp_eq_gt.mp h
    right
    simp [h2]
  · exact Or.inl h

/-- C5, amended: the list returned by list_peers is sorted ascending by the
derived (is_connected, alias, pubkey, connection_string) ordering, in which
false precedes true; in particular once a connected peer appears, every
later peer is connected too, i.e. connected peers come last, not first. -/
theorem list_peers_sorted_ascending (peer_data : List (Nat × PeerMetadata))
    (nodes : List Node) :
    (list_peers peer_data nodes).Pairwise (fun a b => peer_le a b = true) ∧
    (list_peers peer_data nodes).Pairwise
      (fun a b => a.is_connected = true → b.is_connected = true) := by
  have hsorted : (list_peers peer_data nodes).Pairwise (fun a b => peer_le a b = true) :=
    List.sorted_mergeSort peer_le_trans peer_le_total _
  refine ⟨hsorted, hsorted.imp ?_⟩
  intro a b hle ha
  simp only [peer_le, bne_gt_iff, ne_eq] at hle
  by_contra hb
  have hb2 : b.is_connected = false := by
    cases hbc : b.is_connected
    · rfl
    · exact absurd hbc hb
  apply hle
  unfold MutinyPeer.cmp
  rw [ha, hb2]
  rfl

/-- The peer ordering that C5 claims, stated from the spec sentence:
is_connected descending (connected first), then alias, pubkey and
connection_string ascending. -/
def claim_peer_le (a b : MutinyPeer) : Bool :=
  ((compare b.is_connected a.is_connected).then
    ((compare a.«alias» b.«alias»).then
      ((compare a.pubkey b.pubkey).then (compare a.connection_string b.connection_string)))) !=
    Ordering.gt

/-- Concrete stored-peer metadata for the C5 counterexample: no alias, no
connection string. -/
def cex_meta : PeerMetadata :=
  { connection_string := none, «alias» := none, color := none, label := none }

/-- Concrete node for the C5 counterexample: connected to pubkey 2 only. -/
def cex_node : Node :=
  { uuid := "n", pubkey := 9, channels := [], monitors := [], connected_peer_ids := [2] }

/-- The disconnected stored peer produced for pubkey 1. -/
def cex_peer1 : MutinyPeer :=
  { pubkey := 1, connection_string := none, «alias» := none, color := none, label := none,
    is_connected := false }

/-- The synthesized connected peer produced for pubkey 2. -/
def cex_peer2 : MutinyPeer :=
  { pubkey := 2, connection_string := none, «alias» := none, color := none, label := none,
    is_connected := true }

/-- Counterexample to C5 as stated: with one stored (disconnected) peer of
pubkey 1 and one connected peer of pubkey 2, list_peers returns the
disconnected peer first, so the result is not sorted with is_connected
descending (connected peers first). -/
theorem list_peers_claim_order_refuted :
    ¬ (list_peers [(1, cex_meta)] [cex_node]).Pairwise
      (fun a b => claim_peer_le a b = true) := by
  have h1 : list_peers [(1, cex_meta)] [cex_node] =
      List.mergeSort [cex_peer1, cex_peer2] peer_le := rfl
  have h2 : List.mergeSort [cex_peer1, cex_peer2] peer_le = [cex_peer1, cex_peer2] :=
    List.mergeSort_of_sorted (by
      refine List.Pairwise.cons (fun b hb => ?_) (List.pairwise_singleton _ _)
      rw [List.mem_singleton] at hb
      rw [hb]
      decide)
  rw [h1, h2]
  intro h
  exact absurd ((List.pairwise_cons.mp h).1 cex_peer2 (by simp)) (by decide)

/-- The loop-local state of the background sync task spawned by
NodeManager::start_sync (lines 740-785): the iteration counter sync_count
and whether storage.set_done_first_sync() has been called. -/
structure SyncLoopState where
  sync_count : Nat
  done_first_sync : Bool
deriving DecidableEq, Repr

/-- One iteration of the start_sync loop over its storage effect on the
done_first_sync flag (lines 748-783): the sync result sync_ok is only
logged; the flag is written when sync_count == 0, and sync_count is then
incremented.  (The fee refresh on every 10th iteration and the stop-flag
checks, which only truncate the iteration sequence, do not touch the
flag.) -/
def start_sync_iteration (s : SyncLoopState) (sync_ok : Bool) : SyncLoopState :=
  { sync_count := s.sync_count + 1
    done_first_sync := if s.sync_count == 0 then true else s.done_first_sync }

/-- The start_sync loop run over a finite trace of per-iteration sync
outcomes (true = the iteration's sync() returned Ok). -/
def start_sync_run (s : SyncLoopState) (outcomes : List Bool) : SyncLoopState :=
  outcomes.foldl start_sync_iteration s

lemma start_sync_run_done (outcomes : List Bool) : ∀ s : SyncLoopState,
    (start_sync_run s outcomes).done_first_sync =
      (s.done_first_sync || (!outcomes.isEmpty && s.sync_count == 0)) := by
  induction outcomes with
  | nil => intro s; simp [start_sync_run]
  | cons o rest ih =>
    intro s
    show (start_sync_run (start_sync_iteration s o) rest).done_first_sync = _
    rw [ih]
    by_cases h : s.sync_count = 0
    · simp [start_sync_iteration, h]
    · have hne : (s.sync_count == 0) = false := by simpa using h
      have hne2 : (s.sync_count + 1 == 0) = false := by simp
      simp [start_sync_iteration, hne, hne2]

/-- C6, amended: in the background sync loop the done_first_sync flag is
recorded on the loop's first completed iteration regardless of whether that
iteration's sync succeeded: starting from the initial state, after any trace
of iterations the flag is set exactly when at least one iteration ran, even
if every sync in the trace failed. -/
theorem done_first_sync_first_iteration (outcomes : List Bool) :
    (start_sync_run { sync_count := 0, done_first_sync := false } outcomes).done_first_sync =
      !outcomes.isEmpty := by
  rw [start_sync_run_done]
  simp

/-- Counterexample to C6 as stated: a first iteration whose sync fails still
records the done_first_sync flag, although no completed sync has succeeded
(the single outcome in the trace is a failure). -/
theorem done_first_sync_set_on_failed_first_sync :
    (start_sync_run { sync_count := 0, done_first_sync := false } [false]).done_first_sync
        = true ∧
      [false].any (fun b => b) = false :=
  ⟨rfl, rfl⟩

/-- Outcome of NodeManager::pay_invoice (lines 1376-1390), separating the
network rejection, the failed node lookup (get_node, line 629-633 returns
NotFound), and delegation to the selected node
(node.pay_invoice_with_timeout). -/
inductive PayInvoiceOutcome where
  | incorrect_network (network : Network)
  | node_not_found
  | delegated (node_pubkey : Nat) (invoice : Bolt11Invoice) (amt_sats : Option Nat)
deriving DecidableEq, Repr

/-- Model of NodeManager::pay_invoice (lines 1376-1390): reject with
IncorrectNetwork(invoice.network()) when the invoice's network differs from
the manager's, before looking up the paying node. -/
def pay_invoice (network : Network) (nodes : List Node) (from_node : Nat)
    (invoice : Bolt11Invoice) (amt_sats : Option Nat) : PayInvoiceOutcome :=
  if invoice.network != network then
    PayInvoiceOutcome.incorrect_network invoice.network
  else
    match nodes.find? (fun n => n.pubkey == from_node) with
    | none => PayInvoiceOutcome.node_not_found
    | some node => PayInvoiceOutcome.delegated node.pubkey invoice amt_sats

/-- Outcome of NodeManager::keysend (lines 1394-1405). -/
inductive KeysendOutcome where
  | node_not_found
  | delegated (node_pubkey : Nat) (to_node : Nat) (amt_sats : Nat)
deriving DecidableEq, Repr

/-- Model of NodeManager::keysend (lines 1394-1405): look the sending node up
and delegate to node.keysend_with_timeout; a keysend payment is a bare
(pubkey, amount) pair carrying no network tag and the function performs no
network comparison. -/
def keysend (network : Network) (nodes : List Node) (from_node : Nat) (to_node : Nat)
    (amt_sats : Nat) : KeysendOutcome :=
  match nodes.find? (fun n => n.pubkey == from_node) with
  | none => KeysendOutcome.node_not_found
  | some node => KeysendOutcome.delegated node.pubkey to_node amt_sats

/-- C7: pay_invoice on an invoice whose network tag differs from the
manager's configured network returns IncorrectNetwork carrying the invoice's
network, without delegating to any node; keysend's payment carries no
network tag (so the corresponding rejection premise never arises): its
result is independent of the configured network and it delegates to the
named node whenever that node exists. -/
theorem pay_invoice_keysend_network (network : Network) (nodes : List Node)
    (from_node to_node : Nat) (invoice : Bolt11Invoice) (amt_sats : Option Nat)
    (amt : Nat) (node : Node)
    (hmismatch : invoice.network ≠ network)
    (hfind : nodes.find? (fun n => n.pubkey == from_node) = some node) :
    pay_invoice network nodes from_node invoice amt_sats =
      PayInvoiceOutcome.incorrect_network invoice.network ∧
    (∀ pk inv a, pay_invoice network nodes from_node invoice amt_sats ≠
      PayInvoiceOutcome.delegated pk inv a) ∧
    (∀ network2 : Network, keysend network nodes from_node to_node amt =
      keysend network2 nodes from_node to_node amt) ∧
    keysend network nodes from_node to_node amt =
      KeysendOutcome.delegated node.pubkey to_node amt := by
  have hbne : (invoice.network != network) = true := by simpa using hmismatch
  refine ⟨by simp [pay_invoice, hbne], by simp [pay_invoice, hbne], fun network2 => rfl, ?_⟩
  simp [keysend, hfind]

/-- Concrete node used by the C7 witness. -/
def wit_pay_node : Node :=
  { uuid := "w", pubkey := 5, channels := [], monitors := [], connected_peer_ids := [] }

/-- Concrete signet invoice used by the C7 witness. -/
def wit_invoice : Bolt11Invoice :=
  { network := Network.signet, payment_hash := 3, payee_pub_key := none,
    amount_milli_satoshis := some 100000, timestamp := 1681781585, expiry_time := 86400,
    description := InvoiceDescription.direct "" }

/-- Witness for C7 at a concrete input: a mainnet manager rejects a signet
invoice and keysend delegates to the named node. -/
theorem pay_invoice_keysend_network_witness :
    pay_invoice Network.bitcoin [wit_pay_node] 5 wit_invoice none =
      PayInvoiceOutcome.incorrect_network wit_invoice.network ∧
    keysend Network.bitcoin [wit_pay_node] 5 7 100 =
      KeysendOutcome.delegated wit_pay_node.pubkey 7 100 :=
  ⟨(pay_invoice_keysend_network Network.bitcoin [wit_pay_node] 5 7 wit_invoice none 100
      wit_pay_node (by decide) (by rfl)).1,
    (pay_invoice_keysend_network Network.bitcoin [wit_pay_node] 5 7 wit_invoice none 100
      wit_pay_node (by decide) (by rfl)).2.2.2⟩

/-- TTL of the bitcoin price cache (BITCOIN_PRICE_CACHE_SEC, line 60). -/
def BITCOIN_PRICE_CACHE_SEC : Nat := 300

/-- Result of one NodeManager::get_bitcoin_price call: the returned value,
the cache contents after the call, and whether fetch_bitcoin_price was
invoked.  The f32 price is modelled as an opaque Nat (the manager never
computes with it), timestamps in seconds. -/
structure PriceCallResult where
  result : Except MutinyError Nat
  new_cache : Option (Nat × Nat)
  fetched : Bool
deriving Repr

/-- The fetch-and-fall-back arm of get_bitcoin_price (lines 1837-1853): on a
successful fetch cache and return the fresh price stamped now; on a fetch
error return the cached value of any age when one exists, else surface the
error (leaving the cache empty). -/
def price_fetch_branch (cache : Option (Nat × Nat)) (now : Nat)
    (fetch_result : Except MutinyError Nat) : PriceCallResult :=
  match fetch_result with
  | Except.ok new_price =>
      { result := Except.ok new_price, new_cache := some (new_price, now), fetched := true }
  | Except.error e =>
      match cache with
      | some (price, timestamp) =>
          { result := Except.ok price, new_cache := some (price, timestamp), fetched := true }
      | none => { result := Except.error e, new_cache := none, fetched := true }

/-- Model of NodeManager::get_bitcoin_price (lines 1825-1858), parameterized
by the current time and by the outcome fetch_bitcoin_price would produce if
invoked: a cached value with captured_at + 300 s > now is returned without
fetching; otherwise the fetch branch runs. -/
def get_bitcoin_price (cache : Option (Nat × Nat)) (now : Nat)
    (fetch_result : Except MutinyError Nat) : PriceCallResult :=
  match cache with
  | some (price, timestamp) =>
      if timestamp + BITCOIN_PRICE_CACHE_SEC > now then
        { result := Except.ok price, new_cache := some (price, timestamp), fetched := false }
      else
        price_fetch_branch cache now fetch_result
  | none => price_fetch_branch cache now fetch_result

/-- C8: a call finding a cache entry younger than 300 s returns it without
fetching; hence after a first successful call, a second call while
captured_at + 300 s > now performs no fetch and returns the cached value.  A
call whose cache is stale or empty and whose fetch fails returns the cached
value of any age when one exists, and surfaces the error only when the cache
is empty.  A call succeeds exactly when it leaves a cache entry behind. -/
theorem bitcoin_price_cache_spec :
    (∀ (now : Nat) (fetch_result : Except MutinyError Nat) (p t : Nat),
      t + BITCOIN_PRICE_CACHE_SEC > now →
      get_bitcoin_price (some (p, t)) now fetch_result =
        { result := Except.ok p, new_cache := some (p, t), fetched := false }) ∧
    (∀ (cache0 : Option (Nat × Nat)) (now1 now2 : Nat)
        (fr1 fr2 : Except MutinyError Nat) (p t : Nat),
      (get_bitcoin_price cache0 now1 fr1).result.isOk = true →
      (get_bitcoin_price cache0 now1 fr1).new_cache = some (p, t) →
      t + BITCOIN_PRICE_CACHE_SEC > now2 →
      (get_bitcoin_price (get_bitcoin_price cache0 now1 fr1).new_cache now2 fr2).fetched =
          false ∧
        (get_bitcoin_price (get_bitcoin_price cache0 now1 fr1).new_cache now2 fr2).result =
          Except.ok p) ∧
    (∀ (now p t : Nat) (e : MutinyError), ¬ t + BITCOIN_PRICE_CACHE_SEC > now →
      get_bitcoin_price (some (p, t)) now (Except.error e) =
        { result := Except.ok p, new_cache := some (p, t), fetched := true }) ∧
    (∀ (now : Nat) (e : MutinyError),
      get_bitcoin_price none now (Except.error e) =
        { result := Except.error e, new_cache := none, fetched := true }) ∧
    (∀ (cache : Option (Nat × Nat)) (now : Nat) (fr : Except MutinyError Nat),
      (get_bitcoin_price cache now fr).result.isOk = true ↔
        (get_bitcoin_price cache now fr).new_cache.isSome = true) := by
  have hfresh : ∀ (now : Nat) (fetch_result : Except MutinyError Nat) (p t : Nat),
      t + BITCOIN_PRICE_CACHE_SEC > now →
      get_bitcoin_price (some (p, t)) now fetch_result =
        { result := Except.ok p, new_cache := some (p, t), fetched := false } := by
    intro now fr p t h
    simp [get_bitcoin_price, h]
  refine ⟨hfresh, ?_, ?_, ?_, ?_⟩
  · intro cache0 now1 now2 fr1 fr2 p t _ hcache hlive
    rw [hcache, hfresh now2 fr2 p t hlive]
    exact ⟨rfl, rfl⟩
  · intro now p t e h
    simp [get_bitcoin_price, h, price_fetch_branch]
  · intro now e
    simp [get_bitcoin_price, price_fetch_branch]
  · intro cache now fr
    rcases cache with _ | ⟨p, t⟩
    · rcases fr with e | v
      · simp [get_bitcoin_price, price_fetch_branch, Except.isOk, Except.toBool]
      · simp [get_bitcoin_price, price_fetch_branch, Except.isOk, Except.toBool]
    · by_cases h : t + BITCOIN_PRICE_CACHE_SEC > now
      · simp [get_bitcoin_price, h, Except.isOk, Except.toBool]
      · rcases fr with e | v
        · simp [get_bitcoin_price, h, price_fetch_branch, Except.isOk, Except.toBool]
        · simp [get_bitcoin_price, h, price_fetch_branch, Except.isOk, Except.toBool]

/-- Witness for C8 at a concrete input: after a successful fetch at time
100, a second call at time 300 does not fetch and returns the cached
price. -/
theorem bitcoin_price_cache_spec_witness :
    (get_bitcoin_price (get_bitcoin_price none 100 (Except.ok 42)).new_cache 300
        (Except.error MutinyError.BitcoinPriceError)).fetched = false ∧
    (get_bitcoin_price (get_bitcoin_price none 100 (Except.ok 42)).new_cache 300
        (Except.error MutinyError.BitcoinPriceError)).result = Except.ok 42 :=
  bitcoin_price_cache_spec.2.1 none 100 300 (Except.ok 42)
    (Except.error MutinyError.BitcoinPriceError) 42 100 (by rfl) (by rfl) (by decide)

/-- Model of a bitcoin::Address as consumed by the node manager: the network
it was encoded for, and its validity predicate over networks
(bitcoin::Address::is_valid_for_network, an external-library check kept
opaque). -/
structure Address where
  network : Network
  valid_for : Network → Bool

/-- Model of Address::is_valid_for_network. -/
def Address.is_valid_for_network (a : Address) (network : Network) : Bool :=
  a.valid_for network

/-- Outcome of the two on-chain send operations: the network rejection, or
delegation to the on-chain wallet's send/sweep. -/
inductive OnchainSendOutcome where
  | incorrect_network (network : Network)
  | wallet_send (address : Address) (amount : Nat) (fee_rate : Option Nat)
  | wallet_sweep (address : Address) (fee_rate : Option Nat)

/-- Model of NodeManager::send_to_address (lines 849-861): reject with
IncorrectNetwork(send_to.network) when the address is not valid for the
configured network, else delegate to wallet.send. -/
def send_to_address (network : Network) (send_to : Address) (amount : Nat)
    (labels : List String) (fee_rate : Option Nat) : OnchainSendOutcome :=
  if ! send_to.is_valid_for_network network then
    OnchainSendOutcome.incorrect_network send_to.network
  else
    OnchainSendOutcome.wallet_send send_to amount fee_rate

/-- Model of NodeManager::sweep_wallet (lines 867-878): reject with
IncorrectNetwork(send_to.network) when the address is not valid for the
configured network, else delegate to wallet.sweep. -/
def sweep_wallet (network : Network) (send_to : Address) (labels : List String)
    (fee_rate : Option Nat) : OnchainSendOutcome :=
  if ! send_to.is_valid_for_network network then
    OnchainSendOutcome.incorrect_network send_to.network
  else
    OnchainSendOutcome.wallet_sweep send_to fee_rate

/-- C10: on an address that is not valid for the configured network, both
send_to_address and sweep_wallet return IncorrectNetwork carrying the
address's network, and neither reaches the wallet send or sweep operation. -/
theorem send_reject_wrong_network (network : Network) (send_to : Address) (amount : Nat)
    (labels : List String) (fee_rate : Option Nat)
    (h : send_to.is_valid_for_network network = false) :
    send_to_address network send_to amount labels fee_rate =
      OnchainSendOutcome.incorrect_network send_to.network ∧
    sweep_wallet network send_to labels fee_rate =
      OnchainSendOutcome.incorrect_network send_to.network ∧
    (∀ a amt fr, send_to_address network send_to amount labels fee_rate ≠
      OnchainSendOutcome.wallet_send a amt fr) ∧
    (∀ a fr, sweep_wallet network send_to labels fee_rate ≠
      OnchainSendOutcome.wallet_sweep a fr) := by
  refine ⟨by simp [send_to_address, h], by simp [sweep_wallet, h], ?_, ?_⟩
  · intro a amt fr
    simp [send_to_address, h]
  · intro a fr
    simp [sweep_wallet, h]

/-- Concrete testnet-encoded address, valid for no network, used by the C10
witness. -/
def wit_address : Address := { network := Network.testnet, valid_for := fun _ => false }

/-- Witness for C10 at a concrete input: a signet manager rejects the
invalid address from both operations with IncorrectNetwork(testnet). -/
theorem send_reject_wrong_network_witness :
    send_to_address Network.signet wit_address 1000 [] none =
      OnchainSendOutcome.incorrect_network wit_address.network ∧
    sweep_wallet Network.signet wit_address [] none =
      OnchainSendOutcome.incorrect_network wit_address.network :=
  ⟨(send_reject_wrong_network Network.signet wit_address 1000 [] none rfl).1,
    (send_reject_wrong_network Network.signet wit_address 1000 [] none rfl).2.1⟩

end Mutiny
